import Mathlib

/-!
Verification of the goproxy dynamic target-resolution and dispatch core.

The Go sources are shallowly embedded below.  Pure computations (DNS answer
post-processing, change detection, round-robin index selection) become Lean
functions; the event loops (`manageTcp`, `manageUdp`) become step functions on
explicit state types; the DNS network is modelled as an oracle assigning an
outcome to each queried name for the current polling round.
-/

namespace Goproxy

/-- Embeds the Go struct `HostPort { host, port string; resolve bool }`. -/
structure HostPort where
  host : String
  port : String
  resolve : Bool
deriving DecidableEq

/-- A DNS answer record, as far as `queryDns` inspects it: an A record with an
IPv4 address (already rendered to a string, as `a.A.String()` does), an SRV
record with a target name and a numeric port, or any other record type (which
the type assertions in `queryDns` skip). -/
inductive DnsRecord where
  | A (ip : String)
  | SRV (target : String) (port : Nat)
  | other
deriving DecidableEq

/-- Outcome of one `dnsClient.Exchange` call: a transport error, a response
whose `Id` differs from the request's, or a (possibly empty) answer section. -/
inductive DnsOutcome where
  | transportError
  | idMismatch
  | answers (recs : List DnsRecord)
deriving DecidableEq

/-- The two query types `refreshDns` uses. -/
inductive QType where
  | A
  | SRV
deriving DecidableEq

/-- Embeds `queryDns` (the top-level function): on a transport error or a
request/response ID mismatch it logs and returns `nil`; otherwise it scans the
answer section keeping A records (as `HostPort{host: ip}`, so port `""` and
resolve `false`) for a TypeA query, and SRV records (target plus
`strconv.Itoa(port)`) for a TypeSRV query. -/
def queryDns (qType : QType) (o : DnsOutcome) : List HostPort :=
  match o with
  | .transportError => []
  | .idMismatch => []
  | .answers recs =>
      recs.filterMap fun r =>
        match qType, r with
        | .A, .A ip => some ⟨ip, "", false⟩
        | .SRV, .SRV target port => some ⟨target, toString port, false⟩
        | _, _ => none

/-- Embeds Go `net.JoinHostPort` (Go 1.12: hosts containing a colon or a
percent sign are bracketed). -/
def joinHostPort (host port : String) : String :=
  if host.toList.any (fun c => c = ':' || c = '%') then
    "[" ++ host ++ "]:" ++ port
  else
    host ++ ":" ++ port

/-- The DNS environment for one polling round: what `Exchange` would return
for each name, per query type. -/
structure DnsEnv where
  srvQuery : String → DnsOutcome
  aQuery : String → DnsOutcome

/-- Embeds the target-scanning loop of the `queryDns` closure inside
`refreshDns` (the `newTargets` accumulation): non-resolving specs contribute
`net.JoinHostPort(host, port)` unchanged in place; in SRV mode a resolving
spec contributes, for each SRV answer, one `JoinHostPort(ip, srvPort)` per A
answer of the SRV target; in A mode it contributes one
`JoinHostPort(ip, specPort)` per A answer. -/
def roundContributions (srvMode : Bool) (env : DnsEnv) (targets : List HostPort) :
    List String :=
  targets.flatMap fun t =>
    if !t.resolve then
      [joinHostPort t.host t.port]
    else if srvMode then
      (queryDns .SRV (env.srvQuery t.host)).flatMap fun st =>
        (queryDns .A (env.aQuery st.host)).map fun ip => joinHostPort ip.host st.port
    else
      (queryDns .A (env.aQuery t.host)).map fun ip => joinHostPort ip.host t.port

/-- Lexicographic comparison of character lists: Go compares strings byte by
byte over their UTF-8 encoding, which orders exactly as a character-by-character
comparison of the decoded code points. -/
def goLeChars : List Char → List Char → Bool
  | [], _ => true
  | _ :: _, [] => false
  | a :: as, b :: bs => if a = b then goLeChars as bs else decide (a < b)

/-- Go's `<=` on strings. -/
def goLe (a b : String) : Prop :=
  goLeChars a.toList b.toList = true

instance goLe.decRel : DecidableRel goLe := fun a b =>
  inferInstanceAs (Decidable (goLeChars a.toList b.toList = true))

/-- Embeds `sort.Strings`: ascending lexicographic sort.  `sort.Strings` is an
unstable in-place sort, but over a linear order every sorting algorithm
produces the same sorted list, so insertion sort is an extensionally faithful
embedding. -/
def sortStrings (l : List String) : List String :=
  l.insertionSort goLe

/-- Embeds the change-detection test of `refreshDns`: `update` is set when the
lengths differ, and otherwise when some position of the (sorted) new list
differs from the saved `resolvedTargets`. -/
def sigDiffers (prev new : List String) : Bool :=
  if prev.length ≠ new.length then
    true
  else
    (prev.zip new).any fun p => p.1 ≠ p.2

/-- Embeds the tail of the `queryDns` closure inside `refreshDns`: sort the
accumulated contributions in place, compare against the saved
`resolvedTargets`, and on mismatch send the (sorted) `newTargets` slice on the
update channel and save it.  Returns the emission (if any) paired with the new
value of `resolvedTargets`. -/
def refreshRound (prev contribs : List String) : Option (List String) × List String :=
  let newTargets := sortStrings contribs
  if sigDiffers prev newTargets then
    (some newTargets, newTargets)
  else
    (none, prev)

/-! ### Configuration parsing phase of `refreshDns` -/

/-- Split a character list at every occurrence of `sep`. -/
def splitChars (sep : Char) : List Char → List (List Char)
  | [] => [[]]
  | c :: rest =>
    let r := splitChars sep rest
    if c = sep then [] :: r
    else
      match r with
      | [] => [[c]]
      | h :: t => (c :: h) :: t

/-- Embeds Go `net.SplitHostPort`, restricted to the unbracketed `host:port`
form that the claims exercise: exactly one colon separates host and port.
Inputs containing brackets (IPv6 literals) are not modelled and map to `none`;
in Go, zero colons and two-plus unbracketed colons are likewise errors. -/
def splitHostPort (s : String) : Option (String × String) :=
  if s.toList.contains '[' || s.toList.contains ']' then none
  else
    match splitChars ':' s.toList with
    | [hostCs, portCs] => some (String.mk hostCs, String.mk portCs)
    | _ => none

/-- Decimal value of a digit run (the caller has checked all characters are
digits and there are at most three of them). -/
def digitsVal (cs : List Char) : Nat :=
  cs.foldl (fun n c => n * 10 + (c.toNat - 48)) 0

/-- Embeds the `net.ParseIP(host) ≠ nil` test, restricted to the inputs that
can reach it here: an unbracketed host can never contain a colon, so only the
IPv4 dotted-quad form is in play.  A trailing dot (as produced by `dns.Fqdn`)
yields a fifth, empty part and is rejected, exactly as `net.ParseIP` rejects
it. -/
def isIPv4 (s : String) : Bool :=
  let parts := splitChars '.' s.toList
  decide (parts.length = 4) && parts.all fun p =>
    decide (0 < p.length) && decide (p.length ≤ 3) &&
    p.all Char.isDigit && decide (digitsVal p ≤ 255)

/-- Embeds `dns.Fqdn`: append a trailing dot unless the name already ends in
one.  (`dns.IsFqdn` additionally treats a backslash-escaped trailing dot as
non-final; escapes do not occur in the inputs modelled here.) -/
def fqdn (s : String) : String :=
  if s.toList.getLast? = some '.' then s else s ++ "."

/-- Embeds the per-spec setup loop of `refreshDns`: in SRV mode the whole
argument is the host and the port stays empty, otherwise split `host:port`
(`none` models the `log.Fatalf` configuration abort on a parse error); then
`resolve` is set for a non-empty host that is not a literal IP, and afterwards
every non-empty host — resolving or not — is replaced by `dns.Fqdn(host)`. -/
def parseTarget (srvMode : Bool) (target : String) : Option HostPort :=
  match (if srvMode then some (target, "") else splitHostPort target) with
  | none => none
  | some (host, port) =>
      let resolve := if host = "" then false else !(isIPv4 host)
      some ⟨if host = "" then host else fqdn host, port, resolve⟩

/-- The whole setup loop over the configured `connectTo` list. -/
def parseTargets (srvMode : Bool) (connectTo : List String) : Option (List HostPort) :=
  connectTo.mapM (parseTarget srvMode)

/-- `noDnsRequired` as accumulated by the setup loop: no spec needs
resolution.  When this holds, `refreshDns` sends the configured `connectTo`
strings verbatim, once, and returns. -/
def noDnsRequired (targets : List HostPort) : Bool :=
  targets.all fun t => !t.resolve

/-! ### TCP dispatcher (`manageTcp`) -/

/-- Go `uint` is 64 bits wide on the linux/amd64 build target; the round-robin
counters wrap at `2 ^ 64`. -/
def uintCard : Nat := 2 ^ 64

/-- The state `manageTcp` owns: the current `connectTo` slice (initially nil)
and the round-robin counter `i` (a Go `uint`). -/
structure TcpState where
  connectTo : List String
  i : Nat
deriving DecidableEq

/-- The two event sources of the `manageTcp` select loop. -/
inductive TcpEvent where
  | update (targets : List String)
  | conn
deriving DecidableEq

/-- Observable effect of one `manageTcp` loop iteration. -/
inductive TcpAction where
  | forward (target : String)
  | closeIn
  | noAction
deriving DecidableEq

/-- Embeds one iteration of the `manageTcp` select loop: a resolver update
replaces `connectTo` wholesale (the cursor is untouched); an accepted
connection is handed to `forwardTcp` with `connectTo[i % len(connectTo)]` and
`i` incremented when the list is non-empty, and is closed otherwise. -/
def tcpStep (s : TcpState) (e : TcpEvent) : TcpState × TcpAction :=
  match e with
  | .update ts => (⟨ts, s.i⟩, .noAction)
  | .conn =>
      if h : 0 < s.connectTo.length then
        (⟨s.connectTo, (s.i + 1) % uintCard⟩,
         .forward (s.connectTo.get ⟨s.i % s.connectTo.length, Nat.mod_lt _ h⟩))
      else
        (s, .closeIn)

/-- The state `manageTcp` starts in: `var connectTo []string; var i uint`. -/
def tcpInit : TcpState := ⟨[], 0⟩

/-- `n` consecutive connection events with no intervening resolver update. -/
def tcpConnRun (s : TcpState) : Nat → TcpState
  | 0 => s
  | n + 1 => tcpConnRun (tcpStep s .conn).1 n

/-! ### UDP dispatcher (`manageUdp`) -/

/-- The state `manageUdp` owns, abstracting the socket handles to presence
bits: whether `in` is set, whether `out` is set, and the cursor `i`. -/
structure UdpState where
  hasIn : Bool
  hasOut : Bool
  i : Nat
deriving DecidableEq

/-- Observable effects of one `manageUdp` loop iteration, in program order. -/
inductive UdpAction where
  | closeOut
  | dialTo (target : String)
  | logDialFailure
  | startForward
deriving DecidableEq

/-- Embeds the resolver-update arm of the `manageUdp` select loop: close and
clear an existing `out` first; if the new list is non-empty, dial
`connectTo[i % len(connectTo)]` and increment `i` (the increment happens
whether or not the dial succeeds); on success record the new `out` and, if
`in` is already bound, start `forwardUdp`; on failure only log.  The dial
outcome is supplied by the external dialer as `dialOk`. -/
def udpUpdate (s : UdpState) (connectTo : List String) (dialOk : Bool) :
    UdpState × List UdpAction :=
  let closeActs := if s.hasOut then [UdpAction.closeOut] else []
  if h : 0 < connectTo.length then
    let tgt := connectTo.get ⟨s.i % connectTo.length, Nat.mod_lt _ h⟩
    let i2 := (s.i + 1) % uintCard
    if dialOk then
      (⟨s.hasIn, true, i2⟩,
       closeActs ++ [UdpAction.dialTo tgt] ++
         (if s.hasIn then [UdpAction.startForward] else []))
    else
      (⟨s.hasIn, false, i2⟩, closeActs ++ [UdpAction.dialTo tgt, UdpAction.logDialFailure])
  else
    (⟨s.hasIn, false, s.i⟩, closeActs)

/-- Embeds the connection arm of the `manageUdp` select loop: record the
pre-created listening socket as `in` and, if `out` already exists, start
`forwardUdp`. -/
def udpConn (s : UdpState) : UdpState × List UdpAction :=
  (⟨true, s.hasOut, s.i⟩, if s.hasOut then [UdpAction.startForward] else [])

/-! ### UDP flow forwarder (`forwardUdp`) -/

/-- `true` when `needle` is an initial segment of `haystack`. -/
def leadsWith : List Char → List Char → Bool
  | [], _ => true
  | _ :: _, [] => false
  | a :: as, b :: bs => a = b && leadsWith as bs

/-- `true` when `needle` occurs contiguously inside the list. -/
def scanContains (needle : List Char) : List Char → Bool
  | [] => leadsWith needle []
  | c :: rest => leadsWith needle (c :: rest) || scanContains needle rest

/-- Embeds Go `strings.Contains` (substring occurrence). -/
def goContains (s sub : String) : Bool :=
  scanContains sub.toList s.toList

/-- What one pass of the `forwardUdp` loop does after `io.Copy` returns. -/
inductive UdpCopyClass where
  | breakLoop
  | sleepRetry
  | nilPanic
deriving DecidableEq

/-- Embeds the error classification at the bottom of `forwardUdp`'s loop.  The
copy outcome is `io.Copy`'s returned error: `none` models `err == nil` (the
outcome `io.Copy` reports when the reader reaches end-of-stream), `some msg`
an error whose `Error()` renders as `msg`.  The Go code calls `err.Error()`
without a nil check, so an error-free copy dereferences a nil interface: that
run-time panic is the `nilPanic` result. -/
def classifyUdpCopy (err : Option String) : UdpCopyClass :=
  match err with
  | none => .nilPanic
  | some msg =>
      if goContains msg "closed network connection" then .breakLoop else .sleepRetry

end Goproxy

namespace GoproxySingle

open Goproxy

/-! ### The single-target variant (`main.go`) -/

/-- The `none` sentinel of `main.go` (`const none = "(none)"`). -/
def noneSentinel : String := "(none)"

/-- The answer-scanning loop of the single-target `queryDns` closure: it keeps
the first A record and `break`s, skipping everything after it. -/
def firstA : List DnsRecord → Option String
  | [] => none
  | .A ip :: _ => some ip
  | _ :: rest => firstA rest

/-- Embeds the `queryDns` closure of `main.go`: on a transport error or an ID
mismatch, return without touching `old` (no emission); otherwise format the
first A record as `ip:port` (`fmt.Sprintf`), falling back to the `(none)`
sentinel, and emit it iff it differs from `old`, saving it as the new `old`.
Returns the emission (if any) paired with the new `old`. -/
def queryStep (port old : String) (o : DnsOutcome) : Option String × String :=
  match o with
  | .transportError => (none, old)
  | .idMismatch => (none, old)
  | .answers recs =>
      let t :=
        match firstA recs with
        | some ip => ip ++ ":" ++ port
        | none => noneSentinel
      if old ≠ t then (some t, t) else (none, old)

end GoproxySingle

namespace Goproxy

/-! ### Concrete rounds used to evaluate the model on explicit inputs -/

/-- A round in which `b.example.` resolves before `a.example.` in spec order,
but the two addresses sort the other way. -/
def envSortDemo : DnsEnv where
  srvQuery := fun _ => .transportError
  aQuery := fun name =>
    if name = "b.example." then .answers [.A "10.0.0.2"]
    else if name = "a.example." then .answers [.A "10.0.0.1"]
    else .transportError

/-- Two resolving specs configured in the order `b.example.`, `a.example.`. -/
def specsBA : List HostPort :=
  [⟨"b.example.", "1", true⟩, ⟨"a.example.", "1", true⟩]

/-- A round in which every DNS exchange fails at the transport level. -/
def envAllFail : DnsEnv where
  srvQuery := fun _ => .transportError
  aQuery := fun _ => .transportError

/-- A mixed configuration: one hostname spec and one literal-IP spec. -/
def mixedConnectTo : List String := ["example.com:80", "10.0.0.5:90"]

/-- A round for the mixed configuration: the hostname resolves to one
address, nothing else answers. -/
def envMixed : DnsEnv where
  srvQuery := fun _ => .transportError
  aQuery := fun name =>
    if name = "example.com." then .answers [.A "1.2.3.4"] else .transportError

/-- An SRV round: the service name yields two SRV targets; the first target
has no A records, the second has two. -/
def envSrvPartial : DnsEnv where
  srvQuery := fun name =>
    if name = "svc.example." then
      .answers [.SRV "s1.example." 7001, .SRV "s2.example." 7002]
    else .transportError
  aQuery := fun name =>
    if name = "s2.example." then .answers [.A "10.1.1.1", .A "10.1.1.2"]
    else if name = "s1.example." then .answers []
    else .transportError

end Goproxy

namespace Goproxy

/-! ### Order facts about the embedded string comparison -/

theorem goLeChars_total : ∀ as bs : List Char, goLeChars as bs = true ∨ goLeChars bs as = true := by
  intro as
  induction as with
  | nil => intro bs; left; rfl
  | cons a as ih =>
    intro bs
    cases bs with
    | nil => right; rfl
    | cons b bs =>
      by_cases hab : a = b
      · subst hab
        simp only [goLeChars, if_pos rfl]
        exact ih bs
      · have hba : b ≠ a := fun h => hab h.symm
        simp only [goLeChars, if_neg hab, if_neg hba]
        rcases lt_or_gt_of_ne hab with h | h
        · left; exact decide_eq_true h
        · right; exact decide_eq_true h

theorem goLeChars_trans : ∀ as bs cs : List Char,
    goLeChars as bs = true → goLeChars bs cs = true → goLeChars as cs = true := by
  intro as
  induction as with
  | nil => intro bs cs h1 h2; rfl
  | cons a as ih =>
    intro bs cs h1 h2
    cases bs with
    | nil => simp [goLeChars] at h1
    | cons b bs =>
      cases cs with
      | nil => simp [goLeChars] at h2
      | cons c cs =>
        simp only [goLeChars] at h1 h2 ⊢
        by_cases hab : a = b
        · subst hab
          rw [if_pos rfl] at h1
          by_cases hac : a = c
          · subst hac
            rw [if_pos rfl] at h2 ⊢
            exact ih bs cs h1 h2
          · rw [if_neg hac] at h2 ⊢
            exact h2
        · rw [if_neg hab] at h1
          have hlt1 : a < b := of_decide_eq_true h1
          by_cases hbc : b = c
          · have hlt : a < c := hbc ▸ hlt1
            rw [if_neg (ne_of_lt hlt)]
            exact decide_eq_true hlt
          · rw [if_neg hbc] at h2
            have hlt : a < c := lt_trans hlt1 (of_decide_eq_true h2)
            rw [if_neg (ne_of_lt hlt)]
            exact decide_eq_true hlt

theorem goLeChars_antisymm : ∀ as bs : List Char,
    goLeChars as bs = true → goLeChars bs as = true → as = bs := by
  intro as
  induction as with
  | nil =>
    intro bs h1 h2
    cases bs with
    | nil => rfl
    | cons b bs => simp [goLeChars] at h2
  | cons a as ih =>
    intro bs h1 h2
    cases bs with
    | nil => simp [goLeChars] at h1
    | cons b bs =>
      simp only [goLeChars] at h1 h2
      by_cases hab : a = b
      · subst hab
        rw [if_pos rfl] at h1 h2
        rw [ih bs h1 h2]
      · have hba : b ≠ a := fun h => hab h.symm
        rw [if_neg hab] at h1
        rw [if_neg hba] at h2
        exact absurd (of_decide_eq_true h2) (lt_asymm (of_decide_eq_true h1))

instance : IsTotal String goLe := ⟨fun a b => goLeChars_total a.toList b.toList⟩

instance : IsTrans String goLe :=
  ⟨fun a b c h1 h2 => goLeChars_trans a.toList b.toList c.toList h1 h2⟩

instance : IsAntisymm String goLe :=
  ⟨fun a b h1 h2 => String.ext (goLeChars_antisymm a.toList b.toList h1 h2)⟩

theorem sortStrings_perm (l : List String) : (sortStrings l).Perm l :=
  List.perm_insertionSort goLe l

theorem sortStrings_sorted (l : List String) : List.Sorted goLe (sortStrings l) :=
  List.sorted_insertionSort goLe l

/-- Sorting is canonical: permuted inputs sort to the same list. -/
theorem sortStrings_eq_of_perm {a b : List String} (h : a.Perm b) :
    sortStrings a = sortStrings b :=
  List.eq_of_perm_of_sorted
    (((sortStrings_perm a).trans h).trans (sortStrings_perm b).symm)
    (sortStrings_sorted a) (sortStrings_sorted b)

/-! ### Facts about the change-detection signature -/

theorem zip_any_ne_self (l : List String) :
    ((l.zip l).any fun p => decide ¬p.1 = p.2) = false := by
  induction l with
  | nil => rfl
  | cons a l ih =>
    show (decide ¬a = a || (l.zip l).any fun p => decide ¬p.1 = p.2) = false
    rw [ih]
    simp

/-- The change-detection scan never fires on an identical list. -/
theorem sigDiffers_self (l : List String) : sigDiffers l l = false := by
  simp only [sigDiffers, ne_eq, not_true_eq_false]
  rw [if_neg (by simp)]
  exact zip_any_ne_self l

theorem eq_of_zip_any_ne (as : List String) : ∀ bs : List String,
    as.length = bs.length →
    ((as.zip bs).any fun p => decide ¬p.1 = p.2) = false → as = bs := by
  induction as with
  | nil =>
    intro bs hlen _
    cases bs with
    | nil => rfl
    | cons b bs => simp at hlen
  | cons a as ih =>
    intro bs hlen h
    cases bs with
    | nil => simp at hlen
    | cons b bs =>
      rw [List.zip_cons_cons, List.any_cons, Bool.or_eq_false_iff] at h
      rcases h with ⟨hab, hrest⟩
      have h1 : a = b := by simpa using hab
      have h2 : as = bs := ih bs (by simpa using hlen) hrest
      rw [h1, h2]

/-- When the change-detection scan does not fire, the lists are equal. -/
theorem eq_of_sigDiffers_eq_false (prev new : List String)
    (h : sigDiffers prev new = false) : prev = new := by
  by_cases hlen : prev.length ≠ new.length
  · simp only [sigDiffers, if_pos hlen] at h
    exact absurd h (by decide)
  · simp only [sigDiffers, if_neg hlen] at h
    exact eq_of_zip_any_ne prev new (not_not.mp hlen) h

end Goproxy

namespace Goproxy

/-- `refreshRound` written out: emit-and-save exactly when the signature scan
fires on the sorted contributions. -/
theorem refreshRound_eq (prev contribs : List String) :
    refreshRound prev contribs =
      if sigDiffers prev (sortStrings contribs) = true then
        (some (sortStrings contribs), sortStrings contribs)
      else
        (none, prev) := rfl

/-- C1 (amended): when a round's contributions differ from the previous
signature, the value emitted to the dispatcher is the lexicographically sorted
contribution list — a permutation of the original concatenation order — and
that same sorted list is saved as the new signature; the sort result serves as
both the change-detection signature and the emitted order. -/
theorem c1_emitted_is_sorted (prev contribs emitted : List String)
    (h : (refreshRound prev contribs).1 = some emitted) :
    emitted = sortStrings contribs ∧ emitted.Perm contribs ∧
    (refreshRound prev contribs).2 = emitted := by
  rw [refreshRound_eq] at h ⊢
  by_cases hd : sigDiffers prev (sortStrings contribs) = true
  · rw [if_pos hd] at h ⊢
    have he : emitted = sortStrings contribs := (Option.some.inj h).symm
    exact ⟨he, he ▸ sortStrings_perm contribs, he.symm⟩
  · rw [if_neg hd] at h
    exact absurd h (by simp)

theorem c1_emitted_is_sorted_witness :
    ["a:1", "b:1"] = sortStrings ["b:1", "a:1"] ∧
    List.Perm ["a:1", "b:1"] ["b:1", "a:1"] ∧
    (refreshRound [] ["b:1", "a:1"]).2 = ["a:1", "b:1"] :=
  c1_emitted_is_sorted [] ["b:1", "a:1"] ["a:1", "b:1"] (by decide)

/-- C1 counterexample: with the specs configured in the order
(`b.example.`, `a.example.`), the original concatenation order of the round's
contributions is `["10.0.0.2:1", "10.0.0.1:1"]`, yet the emitted value is the
sorted list, not the original order. -/
theorem c1_counterexample :
    roundContributions false envSortDemo specsBA = ["10.0.0.2:1", "10.0.0.1:1"] ∧
    (refreshRound [] (roundContributions false envSortDemo specsBA)).1 =
      some ["10.0.0.1:1", "10.0.0.2:1"] ∧
    (refreshRound [] (roundContributions false envSortDemo specsBA)).1 ≠
      some ["10.0.0.2:1", "10.0.0.1:1"] := by
  refine ⟨by decide, by decide, by decide⟩

/-- C2 (amended): a DNS lookup failure (transport error or transaction-ID
mismatch) for a target is logged and yields zero contributions for that target
in the round — indistinguishable from an empty answer — so the previous
resolved set is NOT retained: when the round's only spec fails and the
previous signature is non-empty, the round emits the empty set, removing that
target's previously contributed addresses. -/
theorem c2_failed_lookup_drops_target (t : HostPort) (ht : t.resolve = true)
    (env : DnsEnv)
    (hfail : env.aQuery t.host = DnsOutcome.transportError ∨
             env.aQuery t.host = DnsOutcome.idMismatch)
    (prev : List String) (hprev : prev ≠ []) :
    roundContributions false env [t] = [] ∧
    (refreshRound prev (roundContributions false env [t])).1 = some [] := by
  have hq : queryDns .A (env.aQuery t.host) = [] := by
    rcases hfail with h | h <;> rw [h] <;> rfl
  have hc : roundContributions false env [t] = [] := by
    simp [roundContributions, ht, hq]
  refine ⟨hc, ?_⟩
  rw [hc, refreshRound_eq]
  have hsort : sortStrings ([] : List String) = [] := rfl
  rw [hsort]
  have hd : sigDiffers prev [] = true := by
    have hlen : prev.length ≠ 0 := fun hz => hprev (List.length_eq_zero.mp hz)
    simp [sigDiffers, hlen]
  rw [if_pos hd]

theorem c2_failed_lookup_drops_target_witness :
    roundContributions false envAllFail [⟨"svc.example.", "80", true⟩] = [] ∧
    (refreshRound ["10.0.0.1:80"]
      (roundContributions false envAllFail [⟨"svc.example.", "80", true⟩])).1 = some [] :=
  c2_failed_lookup_drops_target ⟨"svc.example.", "80", true⟩ rfl envAllFail
    (Or.inl rfl) ["10.0.0.1:80"] (by decide)

/-- C2 counterexample: the previous signature holds the one address the single
resolving spec contributed earlier; this round its lookup fails with a
transport error, and the resolver emits the empty set — an emission that
removes that target's previously contributed address, contradicting "no
emission occurs". -/
theorem c2_counterexample :
    refreshRound ["10.0.0.1:80"]
        (roundContributions false envAllFail [⟨"svc.example.", "80", true⟩]) =
      (some [], []) ∧
    "10.0.0.1:80" ∉ ([] : List String) := by
  refine ⟨by decide, by decide⟩

/-- C4: for a fixed non-empty target list held by the TCP dispatcher with the
cursor at `c = s.i`, the list is unchanged across dispatches, the cursor has
advanced by exactly one per dispatched connection, and the n-th subsequent
connection (0-indexed) is forwarded to the target at index
`(c + n) mod k` where `k` is the list's size. -/
theorem c4_round_robin (s : TcpState) (n : Nat) (hpos : 0 < s.connectTo.length)
    (hbound : s.i + n < uintCard) :
    (tcpConnRun s n).connectTo = s.connectTo ∧
    (tcpConnRun s n).i = s.i + n ∧
    (tcpStep (tcpConnRun s n) .conn).2 =
      TcpAction.forward
        (s.connectTo.get ⟨(s.i + n) % s.connectTo.length, Nat.mod_lt _ hpos⟩) := by
  induction n generalizing s with
  | zero =>
    refine ⟨rfl, rfl, ?_⟩
    show (tcpStep s .conn).2 = _
    simp only [tcpStep, dif_pos hpos]
    rfl
  | succ n ih =>
    have hib : s.i + 1 < uintCard := by omega
    have hstep : (tcpStep s .conn).1 = ⟨s.connectTo, s.i + 1⟩ := by
      simp only [tcpStep, dif_pos hpos, Nat.mod_eq_of_lt hib]
    have hrun : tcpConnRun s (n + 1) = tcpConnRun ⟨s.connectTo, s.i + 1⟩ n := by
      show tcpConnRun (tcpStep s .conn).1 n = _
      rw [hstep]
    have hb2 : (⟨s.connectTo, s.i + 1⟩ : TcpState).i + n < uintCard := by
      show s.i + 1 + n < uintCard
      omega
    obtain ⟨hc, hi, hf⟩ := ih ⟨s.connectTo, s.i + 1⟩ hpos hb2
    have hi2 : (tcpConnRun ⟨s.connectTo, s.i + 1⟩ n).i = s.i + (n + 1) := by
      rw [hi]
      show s.i + 1 + n = s.i + (n + 1)
      omega
    have hf2 : (tcpStep (tcpConnRun ⟨s.connectTo, s.i + 1⟩ n) .conn).2 =
        TcpAction.forward
          (s.connectTo.get ⟨(s.i + 1 + n) % s.connectTo.length, Nat.mod_lt _ hpos⟩) := hf
    have hfin : (⟨(s.i + 1 + n) % s.connectTo.length, Nat.mod_lt _ hpos⟩ :
          Fin s.connectTo.length) =
        ⟨(s.i + (n + 1)) % s.connectTo.length, Nat.mod_lt _ hpos⟩ := by
      apply Fin.ext
      show (s.i + 1 + n) % s.connectTo.length = (s.i + (n + 1)) % s.connectTo.length
      rw [(by omega : s.i + 1 + n = s.i + (n + 1))]
    refine ⟨hrun ▸ hc, by rw [hrun, hi2], ?_⟩
    rw [hrun, hf2, hfin]

theorem c4_round_robin_witness :
    (tcpConnRun ⟨["t0", "t1", "t2"], 1⟩ 4).connectTo = ["t0", "t1", "t2"] ∧
    (tcpConnRun ⟨["t0", "t1", "t2"], 1⟩ 4).i = 5 ∧
    (tcpStep (tcpConnRun ⟨["t0", "t1", "t2"], 1⟩ 4) .conn).2 = TcpAction.forward "t2" := by
  obtain ⟨h1, h2, h3⟩ := c4_round_robin ⟨["t0", "t1", "t2"], 1⟩ 4 (by decide) (by decide)
  exact ⟨h1, h2, h3.trans (by decide)⟩

/-- C5: a connection event arriving while the dispatcher's target list is
empty (as it is before the first resolver emission) closes the inbound
connection, leaves the state unchanged, and never produces a forward action,
so no dial is attempted. -/
theorem c5_empty_closes (s : TcpState) (h : s.connectTo = []) :
    tcpStep s .conn = (s, TcpAction.closeIn) ∧
    ∀ t, (tcpStep s .conn).2 ≠ TcpAction.forward t := by
  have hlen : ¬ 0 < s.connectTo.length := by rw [h]; simp
  refine ⟨by simp only [tcpStep, dif_neg hlen], fun t => ?_⟩
  simp only [tcpStep, dif_neg hlen]
  exact fun hcontra => TcpAction.noConfusion hcontra

theorem c5_empty_closes_witness :
    tcpStep tcpInit .conn = (tcpInit, TcpAction.closeIn) ∧
    (tcpStep tcpInit .conn).2 ≠ TcpAction.forward "10.0.0.1:80" :=
  ⟨(c5_empty_closes tcpInit rfl).1, (c5_empty_closes tcpInit rfl).2 "10.0.0.1:80"⟩

/-- C6: a polling round whose contributions sort to exactly the previous
signature (same length, elementwise equal) emits nothing and leaves the saved
signature unchanged; in particular re-resolving to the identical contribution
list, or to any DNS-imposed reordering of it, produces no emission. -/
theorem c6_sort_equal_no_emission (prev contribs : List String)
    (hsig : sortStrings contribs = prev) :
    refreshRound prev contribs = (none, prev) ∧
    ∀ contribs2, contribs2.Perm contribs → refreshRound prev contribs2 = (none, prev) := by
  have main : ∀ c2 : List String, c2.Perm contribs → refreshRound prev c2 = (none, prev) := by
    intro c2 hperm
    have hsort : sortStrings c2 = prev := (sortStrings_eq_of_perm hperm).trans hsig
    rw [refreshRound_eq, hsort, sigDiffers_self]
    simp
  exact ⟨main contribs (List.Perm.refl contribs), main⟩

theorem c6_sort_equal_no_emission_witness :
    refreshRound ["a:1", "b:1"] ["b:1", "a:1"] = (none, ["a:1", "b:1"]) ∧
    refreshRound ["a:1", "b:1"] ["a:1", "b:1"] = (none, ["a:1", "b:1"]) :=
  ⟨(c6_sort_equal_no_emission ["a:1", "b:1"] ["b:1", "a:1"] (by decide)).1,
   (c6_sort_equal_no_emission ["a:1", "b:1"] ["b:1", "a:1"] (by decide)).2
     ["a:1", "b:1"] (by decide)⟩

end Goproxy

namespace Goproxy

/-- C3 (amended): a non-resolving spec's contribution survives into every
emitted set, but as `net.JoinHostPort` of the spec's *stored* host and port —
and the setup loop stores `dns.Fqdn(host)`, so a literal IP host gains a
trailing dot; the contribution's position in the emitted list is its
lexicographically sorted position, not its configured position. -/
theorem c3_nonresolving_membership :
    (∀ (srvMode : Bool) (env : DnsEnv) (ts : List HostPort) (t : HostPort),
        t ∈ ts → t.resolve = false →
        ∀ (prev emitted : List String),
          (refreshRound prev (roundContributions srvMode env ts)).1 = some emitted →
          joinHostPort t.host t.port ∈ emitted) ∧
    (∀ target h p, splitHostPort target = some (h, p) → h ≠ "" → isIPv4 h = true →
        parseTarget false target = some ⟨fqdn h, p, false⟩) := by
  constructor
  · intro srvMode env ts t hmem ht prev emitted hemit
    have hcontrib : joinHostPort t.host t.port ∈ roundContributions srvMode env ts := by
      simp only [roundContributions]
      exact List.mem_flatMap.mpr ⟨t, hmem, by simp [ht]⟩
    rw [refreshRound_eq] at hemit
    by_cases hd : sigDiffers prev (sortStrings (roundContributions srvMode env ts)) = true
    · rw [if_pos hd] at hemit
      have he : emitted = sortStrings (roundContributions srvMode env ts) :=
        (Option.some.inj hemit).symm
      rw [he]
      exact ((sortStrings_perm _).mem_iff).mpr hcontrib
    · rw [if_neg hd] at hemit
      exact absurd hemit (by simp)
  · intro target h p hsplit hne hip
    simp [parseTarget, hsplit, hne, hip]

theorem c3_nonresolving_membership_witness :
    joinHostPort "10.0.0.5." "90" ∈ ["1.2.3.4:80", "10.0.0.5.:90"] ∧
    parseTarget false "10.0.0.5:90" = some ⟨fqdn "10.0.0.5", "90", false⟩ := by
  constructor
  · exact c3_nonresolving_membership.1 false envMixed
      [⟨"example.com.", "80", true⟩, ⟨"10.0.0.5.", "90", false⟩]
      ⟨"10.0.0.5.", "90", false⟩ (by decide) rfl [] ["1.2.3.4:80", "10.0.0.5.:90"] (by decide)
  · exact c3_nonresolving_membership.2 "10.0.0.5:90" "10.0.0.5" "90"
      (by decide) (by decide) (by decide)

/-- C3 counterexample: the configured literal spec `10.0.0.5:90` is stored
with host `10.0.0.5.` (trailing dot from `dns.Fqdn`), and the round's emitted
set contains `10.0.0.5.:90` but not the configured string `10.0.0.5:90` —
the pass-through is not character-for-character. -/
theorem c3_counterexample :
    parseTargets false mixedConnectTo =
      some [⟨"example.com.", "80", true⟩, ⟨"10.0.0.5.", "90", false⟩] ∧
    (refreshRound [] (roundContributions false envMixed
        [⟨"example.com.", "80", true⟩, ⟨"10.0.0.5.", "90", false⟩])).1 =
      some ["1.2.3.4:80", "10.0.0.5.:90"] ∧
    "10.0.0.5:90" ∉ ["1.2.3.4:80", "10.0.0.5.:90"] := by
  refine ⟨by decide, by decide, by decide⟩

/-- C7: in SRV mode, a spec whose SRV query yields the targets (sr1, sr2)
where sr1 has no A records contributes exactly sr2's A addresses (each paired
with sr2's SRV-supplied port); any emission of such a round is a permutation
of those addresses; a spec with zero SRV answers contributes nothing; and
contributions are concatenative, so other specs' contributions are preserved
alongside. -/
theorem c7_srv_partial (env : DnsEnv) (t : HostPort) (ht : t.resolve = true)
    (sr1 sr2 : HostPort)
    (hS : queryDns .SRV (env.srvQuery t.host) = [sr1, sr2])
    (h1 : queryDns .A (env.aQuery sr1.host) = []) :
    roundContributions true env [t] =
      (queryDns .A (env.aQuery sr2.host)).map (fun ip => joinHostPort ip.host sr2.port) ∧
    (∀ prev emitted,
        (refreshRound prev (roundContributions true env [t])).1 = some emitted →
        emitted.Perm ((queryDns .A (env.aQuery sr2.host)).map
          (fun ip => joinHostPort ip.host sr2.port))) ∧
    (∀ t2 : HostPort, t2.resolve = true → queryDns .SRV (env.srvQuery t2.host) = [] →
        roundContributions true env [t2] = []) ∧
    (∀ ts1 ts2, roundContributions true env (ts1 ++ ts2) =
        roundContributions true env ts1 ++ roundContributions true env ts2) := by
  have hmain : roundContributions true env [t] =
      (queryDns .A (env.aQuery sr2.host)).map (fun ip => joinHostPort ip.host sr2.port) := by
    simp [roundContributions, ht, hS, h1]
  refine ⟨hmain, ?_, ?_, ?_⟩
  · intro prev emitted hemit
    rw [refreshRound_eq] at hemit
    by_cases hd : sigDiffers prev (sortStrings (roundContributions true env [t])) = true
    · rw [if_pos hd] at hemit
      have he : emitted = sortStrings (roundContributions true env [t]) :=
        (Option.some.inj hemit).symm
      rw [he, ← hmain]
      exact sortStrings_perm _
    · rw [if_neg hd] at hemit
      exact absurd hemit (by simp)
  · intro t2 ht2 hS2
    simp [roundContributions, ht2, hS2]
  · intro ts1 ts2
    simp [roundContributions, List.flatMap_append]

theorem c7_srv_partial_witness :
    roundContributions true envSrvPartial [⟨"svc.example.", "", true⟩] =
      ["10.1.1.1:7002", "10.1.1.2:7002"] ∧
    roundContributions true envSrvPartial
        [⟨"svc.example.", "", true⟩, ⟨"svc.example.", "", true⟩] =
      ["10.1.1.1:7002", "10.1.1.2:7002"] ++ ["10.1.1.1:7002", "10.1.1.2:7002"] := by
  obtain ⟨hmain, hperm, hzero, happ⟩ :=
    c7_srv_partial envSrvPartial ⟨"svc.example.", "", true⟩ rfl
      ⟨"s1.example.", "7001", false⟩ ⟨"s2.example.", "7002", false⟩ (by decide) (by decide)
  refine ⟨hmain.trans (by decide), ?_⟩
  have h2 := happ [⟨"svc.example.", "", true⟩] [⟨"svc.example.", "", true⟩]
  show roundContributions true envSrvPartial
      ([⟨"svc.example.", "", true⟩] ++ [⟨"svc.example.", "", true⟩]) = _
  rw [h2, hmain]
  exact by decide

end Goproxy

namespace Goproxy

/-- C8: on a resolver update in the UDP dispatcher, an existing backend socket
is closed first (the close action heads the action list) and the backend is
cleared; when the new set is non-empty exactly one dial is made, to the target
at index `cursor mod len(newSet)`, and the cursor advances by one; on dial
failure the backend stays unset; with an empty set no dial happens and the
cursor is untouched; and the connection event never sets the backend. -/
theorem c8_udp_update (s : UdpState) (ts : List String) (dialOk : Bool) :
    (s.hasOut = true → ∃ rest, (udpUpdate s ts dialOk).2 = UdpAction.closeOut :: rest) ∧
    (∀ h : 0 < ts.length,
        UdpAction.dialTo (ts.get ⟨s.i % ts.length, Nat.mod_lt _ h⟩) ∈
          (udpUpdate s ts dialOk).2 ∧
        (udpUpdate s ts dialOk).1.i = (s.i + 1) % uintCard ∧
        ((udpUpdate s ts dialOk).2.countP fun a =>
            match a with
            | UdpAction.dialTo _ => true
            | _ => false) = 1) ∧
    (dialOk = false → (udpUpdate s ts dialOk).1.hasOut = false) ∧
    (ts.length = 0 → (udpUpdate s ts dialOk).1 = ⟨s.hasIn, false, s.i⟩ ∧
        ((udpUpdate s ts dialOk).2.countP fun a =>
            match a with
            | UdpAction.dialTo _ => true
            | _ => false) = 0) ∧
    (udpConn s).1.hasOut = s.hasOut := by
  refine ⟨?_, ?_, ?_, ?_, rfl⟩
  · intro hout
    by_cases h : 0 < ts.length
    · cases hd : dialOk
      · refine ⟨[UdpAction.dialTo (ts.get ⟨s.i % ts.length, Nat.mod_lt _ h⟩),
            UdpAction.logDialFailure], ?_⟩
        simp [udpUpdate, dif_pos h, hout]
      · refine ⟨[UdpAction.dialTo (ts.get ⟨s.i % ts.length, Nat.mod_lt _ h⟩)] ++
            (if s.hasIn then [UdpAction.startForward] else []), ?_⟩
        simp [udpUpdate, dif_pos h, hout]
    · exact ⟨[], by simp [udpUpdate, dif_neg h, hout]⟩
  · intro h
    simp only [udpUpdate, dif_pos h]
    cases dialOk <;> cases hout : s.hasOut <;> cases hin : s.hasIn <;>
      simp [List.countP_cons, List.countP_append]
  · intro hd
    subst hd
    by_cases h : 0 < ts.length
    · simp only [udpUpdate, dif_pos h, if_neg Bool.false_ne_true]
    · simp only [udpUpdate, dif_neg h]
  · intro hlen
    have h : ¬ 0 < ts.length := by omega
    constructor
    · simp only [udpUpdate, dif_neg h]
    · cases hout : s.hasOut <;> simp [udpUpdate, dif_neg h, hout]

theorem c8_udp_update_witness :
    (∃ rest, (udpUpdate ⟨true, true, 3⟩ ["u0", "u1"] false).2 = UdpAction.closeOut :: rest) ∧
    UdpAction.dialTo "u1" ∈ (udpUpdate ⟨true, true, 3⟩ ["u0", "u1"] false).2 ∧
    (udpUpdate ⟨true, true, 3⟩ ["u0", "u1"] false).1.i = (3 + 1) % uintCard ∧
    (udpUpdate ⟨true, true, 3⟩ ["u0", "u1"] false).1.hasOut = false := by
  obtain ⟨h1, h2, h3, _, _⟩ := c8_udp_update ⟨true, true, 3⟩ ["u0", "u1"] false
  obtain ⟨hmem, hcur, _⟩ := h2 (by decide)
  exact ⟨h1 rfl, hmem, hcur, h3 rfl⟩

/-- C9: the `forwardUdp` error-classification step evaluated on the possible
`io.Copy` outcomes: a "closed network connection" error exits the loop and any
other error sleeps and retries, but an error-free copy (`err == nil`, which
`io.Copy` returns when the reader reaches end-of-stream) makes the code call
`Error()` on a nil interface — a nil-pointer-dereference panic — contradicting
the claim that no steady-state path panics. -/
theorem c9_classification_eval :
    classifyUdpCopy (some "read udp 127.0.0.1:5353: use of closed network connection") =
      UdpCopyClass.breakLoop ∧
    classifyUdpCopy (some "connection refused") = UdpCopyClass.sleepRetry ∧
    classifyUdpCopy none = UdpCopyClass.nilPanic := by
  refine ⟨by decide, by decide, rfl⟩

end Goproxy

namespace GoproxySingle

open Goproxy

/-- C10: in the single-target variant, the answer scan stops at the first A
record (later records never change the result), so every emitted update is a
single string — either `firstA:port` or the `(none)` sentinel — and error
outcomes emit nothing; no multi-address set can ever be emitted. -/
theorem c10_single_address (port old : String) (recs : List DnsRecord) :
    ((queryStep port old (DnsOutcome.answers recs)).1 = none ∨
      (queryStep port old (DnsOutcome.answers recs)).1 =
        some (match firstA recs with
              | some ip => ip ++ ":" ++ port
              | none => noneSentinel)) ∧
    (∀ ip rest, firstA (DnsRecord.A ip :: rest) = some ip) ∧
    (queryStep port old DnsOutcome.transportError).1 = none ∧
    (queryStep port old DnsOutcome.idMismatch).1 = none := by
  refine ⟨?_, fun ip rest => rfl, rfl, rfl⟩
  simp only [queryStep]
  split
  · right; rfl
  · left; rfl

end GoproxySingle

namespace GoproxySingle

theorem c10_single_address_witness :
    (queryStep "80" "(none)"
        (Goproxy.DnsOutcome.answers [Goproxy.DnsRecord.other,
          Goproxy.DnsRecord.A "1.2.3.4", Goproxy.DnsRecord.A "5.6.7.8"])).1 =
      some "1.2.3.4:80" ∧
    firstA [Goproxy.DnsRecord.A "1.2.3.4", Goproxy.DnsRecord.A "5.6.7.8"] = some "1.2.3.4" := by
  have h := c10_single_address "80" "(none)"
      [Goproxy.DnsRecord.other, Goproxy.DnsRecord.A "1.2.3.4", Goproxy.DnsRecord.A "5.6.7.8"]
  refine ⟨?_, h.2.1 "1.2.3.4" [Goproxy.DnsRecord.A "5.6.7.8"]⟩
  rcases h.1 with h1 | h1
  · exact absurd h1 (by decide)
  · exact h1.trans (by decide)

end GoproxySingle
